import Mathlib

/-!
Verification of the multi-tenant HR feedback system.

The repository ships the frontend (React/Next.js components under
project/src and project/frontend/src) together with design documents.
The FastAPI backend (app.py) is not part of the source tree; its
behavior (tenancy and authorization guard, invitation lifecycle,
feedback service) is modelled here from the specification, as noted
on each such definition.  Frontend logic (tag entry, sentiment
display, percentage rendering, comment/acknowledge buttons) is
embedded directly from the TypeScript components.
-/

namespace HRFeedback

/-- Role of a user, from project/frontend/src/types/index.ts
(role is one of owner, admin, manager, employee). -/
inductive Role where
  | owner
  | admin
  | manager
  | employee
deriving DecidableEq, Repr

/-- Sentiment of a feedback row, from project/frontend/src/types/index.ts
(sentiment is one of positive, neutral, negative). -/
inductive Sentiment where
  | positive
  | neutral
  | negative
deriving DecidableEq, Repr

/-- User record, from the User interface in
project/frontend/src/types/index.ts. -/
structure User where
  id : Nat
  email : String
  name : String
  role : Role
  organization_id : Nat
  manager_id : Option Nat
  is_active : Bool
deriving DecidableEq, Repr

/-- Feedback record, from the Feedback interface in
project/frontend/src/types/index.ts (timestamps embedded as Nat). -/
structure Feedback where
  id : Nat
  employee_id : Nat
  manager_id : Nat
  organization_id : Nat
  strengths : String
  improvements : String
  sentiment : Sentiment
  tags : List String
  created_at : Nat
  updated_at : Nat
  acknowledged : Bool
  employee_comment : Option String
deriving DecidableEq, Repr

/-- Invitation record, from the Invitation interface in
project/frontend/src/types/index.ts extended with the server-side
fields named by the spec data model (org_id, token, invited_by). -/
structure Invitation where
  id : Nat
  organization_id : Nat
  email : String
  role : Role
  token : String
  invited_by : Nat
  expires_at : Nat
  accepted_at : Option Nat
  created_at : Nat
deriving DecidableEq, Repr

/-- Decision of the tenancy and authorization guard. -/
inductive Decision where
  | allow
  | deny
deriving DecidableEq, Repr

/-- Operations on a Feedback row, per the spec guard contract. -/
inductive FeedbackOp where
  | read
  | create
  | edit
  | delete
  | acknowledge
  | comment
deriving DecidableEq, Repr

/-- User-management operations, per the spec guard contract. -/
inductive UserOp where
  | view
  | invite
  | roleChange (newRole : Role)
  | setActive (active : Bool)
deriving DecidableEq, Repr

/-- Modelled from the spec: the backend FastAPI app.py carrying the
tenancy and authorization guard is not under src/.  Guard for feedback
operations: the cross-organization check is applied first and denies
unconditionally; read is allowed to admin/owner org-wide, to the target
employee, and to a manager who authored the row or directly manages the
target employee (employeeManagerOf is the target employee's manager_id);
acknowledge/comment only to the target employee; create/edit/delete to
the authoring manager or an admin/owner. -/
def guardFeedback (actor : User) (op : FeedbackOp) (fb : Feedback)
    (employeeManagerOf : Option Nat) : Decision :=
  if actor.organization_id ≠ fb.organization_id then .deny
  else
    match op with
    | .read =>
      match actor.role with
      | .owner => .allow
      | .admin => .allow
      | .employee => if actor.id = fb.employee_id then .allow else .deny
      | .manager =>
        if actor.id = fb.manager_id ∨ employeeManagerOf = some actor.id then .allow
        else .deny
    | .acknowledge => if actor.id = fb.employee_id then .allow else .deny
    | .comment => if actor.id = fb.employee_id then .allow else .deny
    | .create =>
      if actor.id = fb.manager_id ∨ actor.role = .admin ∨ actor.role = .owner then .allow
      else .deny
    | .edit =>
      if actor.id = fb.manager_id ∨ actor.role = .admin ∨ actor.role = .owner then .allow
      else .deny
    | .delete =>
      if actor.id = fb.manager_id ∨ actor.role = .admin ∨ actor.role = .owner then .allow
      else .deny

/-- Modelled from the spec: the backend FastAPI app.py is not under
src/.  Guard for user-management operations: cross-organization access
is denied first; otherwise only admin/owner may manage users, and an
admin may neither elevate a user to owner nor change an owner's role
(owner-role changes are reserved to an owner actor). -/
def guardUser (actor : User) (op : UserOp) (target : User) : Decision :=
  if actor.organization_id ≠ target.organization_id then .deny
  else
    match op with
    | .view =>
      if actor.role = .admin ∨ actor.role = .owner then .allow else .deny
    | .invite =>
      if actor.role = .admin ∨ actor.role = .owner then .allow else .deny
    | .roleChange newRole =>
      if actor.role = .owner then .allow
      else if actor.role = .admin then
        if newRole = .owner ∨ target.role = .owner then .deny else .allow
      else .deny
    | .setActive _ =>
      if actor.role = .admin ∨ actor.role = .owner then .allow else .deny

/-- Modelled from the spec: the backend FastAPI app.py is not under
src/.  Guard for reading an organization's invitations (GET
/api/invitations): cross-organization access is denied first; otherwise
admin/owner only. -/
def guardInvitationView (actor : User) (inv : Invitation) : Decision :=
  if actor.organization_id ≠ inv.organization_id then .deny
  else if actor.role = .admin ∨ actor.role = .owner then .allow
  else .deny

/-- C1: for every actor and every entity (Feedback, User, Invitation)
in a different organization, every guarded operation is denied,
whatever the actor's role (the quantification over the actor covers
owner), and the deny is produced by the cross-organization check before
any role rule fires, so no entity data is ever returned. -/
theorem cross_org_unconditional_deny (actor : User) (fb : Feedback)
    (op : FeedbackOp) (em : Option Nat) (u : User) (uop : UserOp)
    (inv : Invitation) :
    (actor.organization_id ≠ fb.organization_id →
      guardFeedback actor op fb em = .deny) ∧
    (actor.organization_id ≠ u.organization_id →
      guardUser actor uop u = .deny) ∧
    (actor.organization_id ≠ inv.organization_id →
      guardInvitationView actor inv = .deny) := by
  refine ⟨fun h => ?_, fun h => ?_, fun h => ?_⟩ <;>
    simp only [guardFeedback, guardUser, guardInvitationView, if_pos h]

theorem cross_org_unconditional_deny_witness :
    guardFeedback
      { id := 1, email := "o@acme.com", name := "O", role := .owner,
        organization_id := 1, manager_id := none, is_active := true }
      .read
      { id := 7, employee_id := 9, manager_id := 8, organization_id := 2,
        strengths := "s", improvements := "i", sentiment := .positive,
        tags := [], created_at := 0, updated_at := 0,
        acknowledged := false, employee_comment := none }
      none = .deny :=
  (cross_org_unconditional_deny
    { id := 1, email := "o@acme.com", name := "O", role := .owner,
      organization_id := 1, manager_id := none, is_active := true }
    { id := 7, employee_id := 9, manager_id := 8, organization_id := 2,
      strengths := "s", improvements := "i", sentiment := .positive,
      tags := [], created_at := 0, updated_at := 0,
      acknowledged := false, employee_comment := none }
    .read none
    { id := 2, email := "u@beta.com", name := "U", role := .employee,
      organization_id := 2, manager_id := none, is_active := true }
    .view
    { id := 3, organization_id := 2, email := "x@beta.com",
      role := .employee, token := "t", invited_by := 2,
      expires_at := 10, accepted_at := none, created_at := 0 }).1
    (by decide)

/-- C2: the acknowledge and comment operations are allowed exactly when
the actor is the feedback's target employee in the feedback's
organization; every other actor, of any role (authoring manager, admin,
owner included), is denied. -/
theorem feedback_write_only_target_employee (actor : User) (fb : Feedback)
    (em : Option Nat) :
    (guardFeedback actor .acknowledge fb em = .allow ↔
      actor.organization_id = fb.organization_id ∧ actor.id = fb.employee_id) ∧
    (guardFeedback actor .comment fb em = .allow ↔
      actor.organization_id = fb.organization_id ∧ actor.id = fb.employee_id) := by
  constructor <;>
  · simp only [guardFeedback]
    by_cases h1 : actor.organization_id = fb.organization_id <;>
      by_cases h2 : actor.id = fb.employee_id <;>
      simp [h1, h2]

/-- Error classes surfaced by the API, from the spec error taxonomy. -/
inductive ApiError where
  | authz
  | notFound
  | alreadyAccepted
  | expired
  | conflict
deriving DecidableEq, Repr

/-- Edit/create payload sent by the frontend form: the handleSubmit of
FeedbackForm (project/frontend/src/components/FeedbackHistory.tsx)
sends exactly strengths, improvements, sentiment, tags and employee_id
and nothing else. -/
structure EditPayload where
  strengths : String
  improvements : String
  sentiment : Sentiment
  tags : List String
  employee_id : Nat
deriving DecidableEq, Repr

/-- Modelled from the spec: the backend feedback service (app.py) is
not under src/.  Acknowledge sets acknowledged to true and touches
nothing else. -/
def ackApply (fb : Feedback) : Feedback :=
  { fb with acknowledged := true }

/-- Modelled from the spec: the backend feedback service (app.py) is
not under src/.  Comment stores the submitted text as the single
employee_comment value, overwriting any previous one. -/
def commentApply (fb : Feedback) (text : String) : Feedback :=
  { fb with employee_comment := some text }

/-- Modelled from the spec: the backend feedback service (app.py) is
not under src/.  Edit replaces the content fields carried by the form
payload and refreshes updated_at; acknowledged and employee_comment are
not part of the payload and are left untouched. -/
def editApply (fb : Feedback) (p : EditPayload) (now : Nat) : Feedback :=
  { fb with
    strengths := p.strengths
    improvements := p.improvements
    sentiment := p.sentiment
    tags := p.tags
    updated_at := now }

/-- Acknowledge endpoint: guard first, then the domain effect. -/
def acknowledgeEndpoint (actor : User) (fb : Feedback) :
    Except ApiError Feedback :=
  match guardFeedback actor .acknowledge fb none with
  | .allow => .ok (ackApply fb)
  | .deny => .error .authz

/-- Comment endpoint: guard first, then the domain effect.  There is no
server-side check that a comment does not already exist. -/
def commentEndpoint (actor : User) (fb : Feedback) (text : String) :
    Except ApiError Feedback :=
  match guardFeedback actor .comment fb none with
  | .allow => .ok (commentApply fb text)
  | .deny => .error .authz

/-- Trim of leading and trailing whitespace, modelling the JavaScript
String.prototype.trim call used by the forms. -/
def jsTrim (s : String) : String :=
  (((s.toList.dropWhile Char.isWhitespace).reverse.dropWhile
    Char.isWhitespace).reverse).asString

/-- Acknowledge button visibility, from FeedbackCard in
project/src/components/EmployeeDashboard.tsx line 214: the button is
rendered only while the feedback is unacknowledged. -/
def showAcknowledgeButton (fb : Feedback) : Bool :=
  !fb.acknowledged

/-- Add-comment button visibility, from FeedbackCard in
project/src/components/EmployeeDashboard.tsx line 223: the JSX
condition is the truthiness test on feedback.employee_comment, so the
button is rendered while the comment is absent or the empty string
(both falsy in JavaScript), and hidden for any other stored comment. -/
def showAddCommentButton (fb : Feedback) : Bool :=
  match fb.employee_comment with
  | none => true
  | some s => s == ""

/-- Comment submission of the form, from handleSubmitComment in
FeedbackCard (project/src/components/EmployeeDashboard.tsx lines
134-141): the comment is sent, untrimmed, only when its trim is truthy
(non-empty); otherwise nothing is sent. -/
def submitCommentForm (comment : String) : Option String :=
  if jsTrim comment != "" then some comment else none

/-- C4: an edit rewrites only strengths, improvements, sentiment, tags
and updated_at; acknowledged, employee_comment and the identity fields
are returned unchanged, so an edit never reverts an acknowledgment and
never clears a stored comment. -/
theorem edit_preserves_ack_and_comment (fb : Feedback) (p : EditPayload)
    (now : Nat) :
    (editApply fb p now).acknowledged = fb.acknowledged ∧
    (editApply fb p now).employee_comment = fb.employee_comment ∧
    (editApply fb p now).id = fb.id ∧
    (editApply fb p now).organization_id = fb.organization_id ∧
    (editApply fb p now).employee_id = fb.employee_id ∧
    (editApply fb p now).manager_id = fb.manager_id ∧
    (editApply fb p now).created_at = fb.created_at ∧
    (editApply fb p now).strengths = p.strengths ∧
    (editApply fb p now).improvements = p.improvements ∧
    (editApply fb p now).sentiment = p.sentiment ∧
    (editApply fb p now).tags = p.tags ∧
    (editApply fb p now).updated_at = now := by
  repeat' constructor

/-- Sequences of mutating operations on one Feedback row. -/
inductive FbOp where
  | editOp (p : EditPayload) (now : Nat)
  | ackOp
  | commentOp (text : String)

/-- Application of one mutating operation to a Feedback row. -/
def applyFbOp (fb : Feedback) (op : FbOp) : Feedback :=
  match op with
  | .editOp p now => editApply fb p now
  | .ackOp => ackApply fb
  | .commentOp s => commentApply fb s

/-- Application of a sequence of mutating operations, first to last. -/
def applyFbOps (fb : Feedback) (ops : List FbOp) : Feedback :=
  ops.foldl applyFbOp fb

/-- C5: acknowledged is monotone, false to true only: once a Feedback
row is acknowledged, no reachable sequence of edit, acknowledge or
comment operations ever brings acknowledged back to false. -/
theorem acknowledged_never_reverts (fb : Feedback) (ops : List FbOp)
    (h : fb.acknowledged = true) :
    (applyFbOps fb ops).acknowledged = true := by
  induction ops generalizing fb with
  | nil => exact h
  | cons op rest ih =>
    refine ih (applyFbOp fb op) ?_
    cases op with
    | editOp p now => exact h
    | ackOp => rfl
    | commentOp s => exact h

theorem acknowledged_never_reverts_witness :
    (applyFbOps
      { id := 1, employee_id := 9, manager_id := 8, organization_id := 1,
        strengths := "s", improvements := "i", sentiment := .neutral,
        tags := [], created_at := 0, updated_at := 0,
        acknowledged := true, employee_comment := none }
      [.editOp { strengths := "s2", improvements := "i2",
                 sentiment := .negative, tags := ["t"], employee_id := 9 } 5,
       .commentOp "thanks", .ackOp]).acknowledged = true :=
  acknowledged_never_reverts
    { id := 1, employee_id := 9, manager_id := 8, organization_id := 1,
      strengths := "s", improvements := "i", sentiment := .neutral,
      tags := [], created_at := 0, updated_at := 0,
      acknowledged := true, employee_comment := none }
    [.editOp { strengths := "s2", improvements := "i2",
               sentiment := .negative, tags := ["t"], employee_id := 9 } 5,
     .commentOp "thanks", .ackOp]
    rfl

/-- C6: acknowledging by the target employee succeeds and sets
acknowledged; a second acknowledge of the result is a no-op success
returning the same row, not an error. -/
theorem acknowledge_idempotent (actor : User) (fb : Feedback)
    (horg : actor.organization_id = fb.organization_id)
    (hid : actor.id = fb.employee_id) :
    ∃ fb1, acknowledgeEndpoint actor fb = .ok fb1 ∧
      fb1.acknowledged = true ∧
      acknowledgeEndpoint actor fb1 = .ok fb1 := by
  have hg : ∀ g : Feedback, g.organization_id = fb.organization_id →
      g.employee_id = fb.employee_id →
      guardFeedback actor .acknowledge g none = .allow := by
    intro g h1 h2
    simp only [guardFeedback, h1, horg, hid, h2, ne_eq, not_true_eq_false,
      if_false, if_pos]
  refine ⟨ackApply fb, ?_, rfl, ?_⟩
  · simp only [acknowledgeEndpoint, hg fb rfl rfl]
  · simp only [acknowledgeEndpoint, hg (ackApply fb) rfl rfl]
    rfl

theorem acknowledge_idempotent_witness :
    ∃ fb1, acknowledgeEndpoint
      { id := 9, email := "e@acme.com", name := "E", role := .employee,
        organization_id := 1, manager_id := some 8, is_active := true }
      { id := 1, employee_id := 9, manager_id := 8, organization_id := 1,
        strengths := "s", improvements := "i", sentiment := .positive,
        tags := [], created_at := 0, updated_at := 0,
        acknowledged := false, employee_comment := none } = .ok fb1 ∧
      fb1.acknowledged = true ∧
      acknowledgeEndpoint
        { id := 9, email := "e@acme.com", name := "E", role := .employee,
          organization_id := 1, manager_id := some 8, is_active := true }
        fb1 = .ok fb1 :=
  acknowledge_idempotent
    { id := 9, email := "e@acme.com", name := "E", role := .employee,
      organization_id := 1, manager_id := some 8, is_active := true }
    { id := 1, employee_id := 9, manager_id := 8, organization_id := 1,
      strengths := "s", improvements := "i", sentiment := .positive,
      tags := [], created_at := 0, updated_at := 0,
      acknowledged := false, employee_comment := none }
    rfl rfl

/-- C7: a Feedback row stores at most one comment string because a
second comment overwrites the first; the server accepts a comment from
the target employee even when one is already stored (no hard
constraint), and the at-most-once behavior comes from the UI alone:
for every comment the form can actually send (its trim is truthy), the
add-comment button stops rendering once that comment is stored, while
it renders when no comment is stored. -/
theorem comment_overwrites_ui_only (actor : User) (fb : Feedback)
    (c1 c2 : String)
    (horg : actor.organization_id = fb.organization_id)
    (hid : actor.id = fb.employee_id)
    (hsent : submitCommentForm c1 = some c1) :
    (commentApply (commentApply fb c1) c2).employee_comment = some c2 ∧
    commentEndpoint actor (commentApply fb c1) c2 =
      .ok (commentApply (commentApply fb c1) c2) ∧
    showAddCommentButton (commentApply fb c1) = false ∧
    (fb.employee_comment = none → showAddCommentButton fb = true) := by
  have htrim : jsTrim c1 ≠ "" := by
    unfold submitCommentForm at hsent
    split at hsent
    next hc => simpa using hc
    next => cases hsent
  have hne : c1 ≠ "" := fun h0 => htrim (by rw [h0]; rfl)
  refine ⟨rfl, ?_, ?_, fun h => ?_⟩
  · simp only [commentEndpoint, guardFeedback, commentApply, horg, hid,
      ne_eq, not_true_eq_false, if_false, if_pos]
  · show (c1 == "") = false
    cases hbeq : c1 == "" with
    | false => rfl
    | true => exact absurd (eq_of_beq hbeq) hne
  · simp [showAddCommentButton, h]

theorem comment_overwrites_ui_only_witness :
    (commentApply (commentApply
      { id := 1, employee_id := 9, manager_id := 8, organization_id := 1,
        strengths := "s", improvements := "i", sentiment := .positive,
        tags := [], created_at := 0, updated_at := 0,
        acknowledged := false, employee_comment := none } "first") "second"
      ).employee_comment = some "second" ∧
    commentEndpoint
      { id := 9, email := "e@acme.com", name := "E", role := .employee,
        organization_id := 1, manager_id := some 8, is_active := true }
      (commentApply
        { id := 1, employee_id := 9, manager_id := 8, organization_id := 1,
          strengths := "s", improvements := "i", sentiment := .positive,
          tags := [], created_at := 0, updated_at := 0,
          acknowledged := false, employee_comment := none } "first") "second" =
      .ok (commentApply (commentApply
        { id := 1, employee_id := 9, manager_id := 8, organization_id := 1,
          strengths := "s", improvements := "i", sentiment := .positive,
          tags := [], created_at := 0, updated_at := 0,
          acknowledged := false, employee_comment := none } "first") "second") ∧
    showAddCommentButton (commentApply
      { id := 1, employee_id := 9, manager_id := 8, organization_id := 1,
        strengths := "s", improvements := "i", sentiment := .positive,
        tags := [], created_at := 0, updated_at := 0,
        acknowledged := false, employee_comment := none } "first") = false ∧
    (({ id := 1, employee_id := 9, manager_id := 8, organization_id := 1,
        strengths := "s", improvements := "i", sentiment := .positive,
        tags := [], created_at := 0, updated_at := 0,
        acknowledged := false, employee_comment := none } :
        Feedback).employee_comment = none →
      showAddCommentButton
        { id := 1, employee_id := 9, manager_id := 8, organization_id := 1,
          strengths := "s", improvements := "i", sentiment := .positive,
          tags := [], created_at := 0, updated_at := 0,
          acknowledged := false, employee_comment := none } = true) :=
  comment_overwrites_ui_only
    { id := 9, email := "e@acme.com", name := "E", role := .employee,
      organization_id := 1, manager_id := some 8, is_active := true }
    { id := 1, employee_id := 9, manager_id := 8, organization_id := 1,
      strengths := "s", improvements := "i", sentiment := .positive,
      tags := [], created_at := 0, updated_at := 0,
      acknowledged := false, employee_comment := none }
    "first" "second" rfl rfl (by decide)

/-- Server-side store contents relevant to invitation acceptance. -/
structure ServerState where
  users : List User
  invitations : List Invitation
  nextUserId : Nat
deriving DecidableEq, Repr

/-- Marking of the invitation holding a given token as accepted at a
given time; every other invitation is returned unchanged. -/
def markAccepted (tok : String) (now : Nat) (inv : Invitation) : Invitation :=
  if inv.token == tok then { inv with accepted_at := some now } else inv

/-- Modelled from the spec: the backend FastAPI app.py is not under
src/.  Invitation acceptance: the presented token is looked up, failing
with NotFound if absent; an invitation with accepted_at set fails with
AlreadyAccepted; one past expires_at fails with Expired; otherwise a
User row is created in the invitation's organization with the
pre-assigned role, and accepted_at is set, making the invitation
terminal. -/
def acceptInvitation (st : ServerState) (tok : String) (now : Nat)
    (newName : String) : Except ApiError ServerState :=
  match st.invitations.find? (fun inv => inv.token == tok) with
  | none => .error .notFound
  | some inv =>
    if inv.accepted_at.isSome then .error .alreadyAccepted
    else if inv.expires_at < now then .error .expired
    else
      .ok { users := { id := st.nextUserId, email := inv.email,
                       name := newName, role := inv.role,
                       organization_id := inv.organization_id,
                       manager_id := none, is_active := true } :: st.users,
            invitations := st.invitations.map (markAccepted tok now),
            nextUserId := st.nextUserId + 1 }

/-- Marking an invitation as accepted does not change its token. -/
theorem token_markAccepted (tok : String) (now : Nat) (inv : Invitation) :
    (markAccepted tok now inv).token = inv.token := by
  unfold markAccepted
  split <;> rfl

/-- C3: a first successful acceptance of a token creates exactly one
User, in the invitation's organization with its pre-assigned role, and
records accepted_at; a second acceptance of the same token then fails
with AlreadyAccepted and the total stays at exactly one created User. -/
theorem invitation_accept_single_use (st : ServerState) (tok newName : String)
    (t1 t2 : Nat) (st1 : ServerState)
    (h : acceptInvitation st tok t1 newName = .ok st1) :
    (∃ inv, st.invitations.find? (fun i => i.token == tok) = some inv ∧
      st1.users = { id := st.nextUserId, email := inv.email,
                    name := newName, role := inv.role,
                    organization_id := inv.organization_id,
                    manager_id := none, is_active := true } :: st.users) ∧
    st1.users.length = st.users.length + 1 ∧
    (∃ inv1, st1.invitations.find? (fun i => i.token == tok) = some inv1 ∧
      inv1.accepted_at = some t1) ∧
    acceptInvitation st1 tok t2 newName = .error .alreadyAccepted := by
  unfold acceptInvitation at h
  split at h
  · exact absurd h (by simp)
  next inv hfind =>
    split at h
    · exact absurd h (by simp)
    next hacc =>
      split at h
      · exact absurd h (by simp)
      next hexp =>
        cases h
        have hpred : (fun i => (markAccepted tok t1 i).token == tok) =
            (fun i : Invitation => i.token == tok) := by
          funext i; rw [token_markAccepted]
        have hfind1 : (st.invitations.map (markAccepted tok t1)).find?
            (fun i => i.token == tok) =
            some (markAccepted tok t1 inv) := by
          rw [List.find?_map]
          have : (st.invitations.find?
              (fun i => (markAccepted tok t1 i).token == tok)).map
                (markAccepted tok t1) = some (markAccepted tok t1 inv) := by
            rw [hpred, hfind]; rfl
          exact this
        have htok : (inv.token == tok) = true := by
          have h0 := List.find?_some hfind
          simpa using h0
        have hmark : markAccepted tok t1 inv =
            { inv with accepted_at := some t1 } := by
          unfold markAccepted; rw [if_pos htok]
        refine ⟨⟨inv, hfind, rfl⟩, rfl, ⟨markAccepted tok t1 inv, hfind1, ?_⟩, ?_⟩
        · rw [hmark]
        · simp only [acceptInvitation, hfind1, hmark, Option.isSome_some,
            if_true]

theorem invitation_accept_single_use_witness :
    acceptInvitation
      { users := [{ id := 1, email := "o@acme.com", name := "O",
                    role := .owner, organization_id := 1,
                    manager_id := none, is_active := true }],
        invitations := [{ id := 1, organization_id := 1,
                          email := "m@acme.com", role := .manager,
                          token := "tok-1", invited_by := 1,
                          expires_at := 100, accepted_at := none,
                          created_at := 0 }],
        nextUserId := 2 } "tok-1" 20 "Eve" = .ok
      { users := [{ id := 2, email := "m@acme.com", name := "Eve",
                    role := .manager, organization_id := 1,
                    manager_id := none, is_active := true },
                  { id := 1, email := "o@acme.com", name := "O",
                    role := .owner, organization_id := 1,
                    manager_id := none, is_active := true }],
        invitations := [{ id := 1, organization_id := 1,
                          email := "m@acme.com", role := .manager,
                          token := "tok-1", invited_by := 1,
                          expires_at := 100, accepted_at := some 20,
                          created_at := 0 }],
        nextUserId := 3 } ∧
    acceptInvitation
      { users := [{ id := 2, email := "m@acme.com", name := "Eve",
                    role := .manager, organization_id := 1,
                    manager_id := none, is_active := true },
                  { id := 1, email := "o@acme.com", name := "O",
                    role := .owner, organization_id := 1,
                    manager_id := none, is_active := true }],
        invitations := [{ id := 1, organization_id := 1,
                          email := "m@acme.com", role := .manager,
                          token := "tok-1", invited_by := 1,
                          expires_at := 100, accepted_at := some 20,
                          created_at := 0 }],
        nextUserId := 3 } "tok-1" 30 "Eve" = .error .alreadyAccepted := by
  refine ⟨by rfl, ?_⟩
  exact (invitation_accept_single_use
    { users := [{ id := 1, email := "o@acme.com", name := "O",
                  role := .owner, organization_id := 1,
                  manager_id := none, is_active := true }],
      invitations := [{ id := 1, organization_id := 1,
                        email := "m@acme.com", role := .manager,
                        token := "tok-1", invited_by := 1,
                        expires_at := 100, accepted_at := none,
                        created_at := 0 }],
      nextUserId := 2 } "tok-1" "Eve" 20 30
    { users := [{ id := 2, email := "m@acme.com", name := "Eve",
                  role := .manager, organization_id := 1,
                  manager_id := none, is_active := true },
                { id := 1, email := "o@acme.com", name := "O",
                  role := .owner, organization_id := 1,
                  manager_id := none, is_active := true }],
      invitations := [{ id := 1, organization_id := 1,
                        email := "m@acme.com", role := .manager,
                        token := "tok-1", invited_by := 1,
                        expires_at := 100, accepted_at := some 20,
                        created_at := 0 }],
      nextUserId := 3 } (by rfl)).2.2.2

/-- Tag entry, from addTag in FeedbackForm
(project/frontend/src/components/FeedbackHistory.tsx lines 268-276):
the trimmed input is appended only when it is non-empty and not already
present in the tag list. -/
def addTag (tags : List String) (tagInput : String) : List String :=
  if jsTrim tagInput != "" && !tags.contains (jsTrim tagInput) then
    tags ++ [jsTrim tagInput]
  else tags

/-- Tag list assembled by entering each raw input through addTag,
starting from the empty list, as the form does. -/
def sanitizeTags (inputs : List String) : List String :=
  inputs.foldl addTag []

theorem addTag_cond_spec (tags : List String) (i : String)
    (h : (jsTrim i != "" && !tags.contains (jsTrim i)) = true) :
    jsTrim i ≠ "" ∧ jsTrim i ∉ tags := by
  simp only [Bool.and_eq_true, bne_iff_ne, Bool.not_eq_true', ne_eq] at h
  refine ⟨h.1, fun hm => ?_⟩
  have hc : tags.contains (jsTrim i) = true := by
    rw [List.contains_iff_exists_mem_beq]
    exact ⟨jsTrim i, hm, by simp⟩
  rw [h.2] at hc
  cases hc

theorem addTag_nodup (tags : List String) (i : String) (h : tags.Nodup) :
    (addTag tags i).Nodup := by
  unfold addTag
  split
  next hc => simp [List.nodup_append, h, (addTag_cond_spec tags i hc).2]
  next => exact h

theorem mem_addTag (tags : List String) (i t : String)
    (h : t ∈ addTag tags i) :
    t ∈ tags ∨ (t = jsTrim i ∧ jsTrim i ≠ "") := by
  unfold addTag at h
  split at h
  next hc =>
    rcases List.mem_append.mp h with h1 | h1
    · exact .inl h1
    · exact .inr ⟨by simpa using h1, (addTag_cond_spec tags i hc).1⟩
  next => exact .inl h

theorem mem_addTag_left (tags : List String) (i t : String) (h : t ∈ tags) :
    t ∈ addTag tags i := by
  unfold addTag
  split
  · exact List.mem_append_left _ h
  · exact h

theorem jsTrim_mem_addTag (tags : List String) (i : String)
    (h : jsTrim i ≠ "") : jsTrim i ∈ addTag tags i := by
  unfold addTag
  split
  next => exact List.mem_append_right _ (List.mem_singleton_self _)
  next hc =>
    simp only [Bool.and_eq_true, bne_iff_ne, Bool.not_eq_true', ne_eq,
      not_and] at hc
    have hcontains : tags.contains (jsTrim i) = true := by
      cases hcon : tags.contains (jsTrim i) with
      | true => rfl
      | false => exact absurd hcon (hc h)
    rcases List.contains_iff_exists_mem_beq.mp hcontains with ⟨a, ha, hbeq⟩
    have : jsTrim i = a := by simpa using hbeq.symm
    rw [this]
    exact ha

theorem foldl_addTag_mem (inputs : List String) :
    ∀ acc t, t ∈ acc → t ∈ inputs.foldl addTag acc := by
  induction inputs with
  | nil => exact fun acc t h => h
  | cons i rest ih =>
    exact fun acc t h => ih (addTag acc i) t (mem_addTag_left acc i t h)

theorem foldl_addTag_spec (inputs : List String) :
    ∀ acc, acc.Nodup →
    ((inputs.foldl addTag acc).Nodup ∧
     (∀ t ∈ inputs.foldl addTag acc,
        t ∈ acc ∨ (∃ s ∈ inputs, t = jsTrim s ∧ jsTrim s ≠ "")) ∧
     (∀ s ∈ inputs, jsTrim s ≠ "" → jsTrim s ∈ inputs.foldl addTag acc)) := by
  induction inputs with
  | nil =>
    exact fun acc h => ⟨h, fun t ht => .inl ht, fun s hs => absurd hs (by simp)⟩
  | cons i rest ih =>
    intro acc h
    obtain ⟨hn, hmem, hcompl⟩ := ih (addTag acc i) (addTag_nodup acc i h)
    refine ⟨hn, fun t ht => ?_, fun s hs htrim => ?_⟩
    · rcases hmem t ht with hin | ⟨s, hs, heq, hne⟩
      · rcases mem_addTag acc i t hin with h1 | ⟨h1, h2⟩
        · exact .inl h1
        · exact .inr ⟨i, List.mem_cons_self i rest, h1, h2⟩
      · exact .inr ⟨s, List.mem_cons_of_mem i hs, heq, hne⟩
    · rcases List.mem_cons.mp hs with rfl | hs1
      · exact foldl_addTag_mem rest (addTag acc s) (jsTrim s)
          (jsTrim_mem_addTag acc s htrim)
      · exact hcompl s hs1 htrim

theorem jsTrim_not_blank (s : String) (h : jsTrim s ≠ "") :
    (jsTrim s).toList.all Char.isWhitespace = false := by
  have hl : (jsTrim s).toList =
      ((s.toList.dropWhile Char.isWhitespace).reverse.dropWhile
        Char.isWhitespace).reverse := rfl
  have hne : ((s.toList.dropWhile Char.isWhitespace).reverse.dropWhile
      Char.isWhitespace).reverse ≠ [] := by
    intro h0
    apply h
    show (((s.toList.dropWhile Char.isWhitespace).reverse.dropWhile
      Char.isWhitespace).reverse).asString = ""
    rw [h0]
    rfl
  have hd : (s.toList.dropWhile Char.isWhitespace).reverse.dropWhile
      Char.isWhitespace ≠ [] := by
    intro h0
    apply hne
    rw [h0]
    rfl
  have hhead := List.head_dropWhile_not Char.isWhitespace
    (s.toList.dropWhile Char.isWhitespace).reverse hd
  cases hall : (jsTrim s).toList.all Char.isWhitespace with
  | false => rfl
  | true =>
    rw [hl, List.all_eq_true] at hall
    have hmem : ((s.toList.dropWhile Char.isWhitespace).reverse.dropWhile
        Char.isWhitespace).head hd ∈
        ((s.toList.dropWhile Char.isWhitespace).reverse.dropWhile
          Char.isWhitespace).reverse := by
      rw [List.mem_reverse]
      exact List.head_mem hd
    have := hall _ hmem
    rw [hhead] at this
    cases this

/-- C8: a tag list assembled through the form's addTag is
duplicate-free, every entry is the non-empty trim of one of the raw
inputs (so no empty or whitespace-only string occurs), and every raw
input with a non-empty trim is represented, so duplicates are dropped
rather than repeated. -/
theorem tags_deduplicated_and_trimmed (inputs : List String) :
    (sanitizeTags inputs).Nodup ∧
    (∀ t ∈ sanitizeTags inputs,
      t ≠ "" ∧ t.toList.all Char.isWhitespace = false ∧
      ∃ s ∈ inputs, t = jsTrim s) ∧
    (∀ s ∈ inputs, jsTrim s ≠ "" → jsTrim s ∈ sanitizeTags inputs) := by
  obtain ⟨hn, hmem, hcompl⟩ := foldl_addTag_spec inputs [] List.nodup_nil
  refine ⟨hn, fun t ht => ?_, hcompl⟩
  rcases hmem t ht with hin | ⟨s, hs, heq, hne⟩
  · cases hin
  · subst heq
    exact ⟨hne, jsTrim_not_blank s hne, s, hs, rfl⟩

theorem tags_deduplicated_and_trimmed_witness :
    sanitizeTags ["  communication ", "communication", "   ", "", "leadership"]
      = ["communication", "leadership"] ∧
    jsTrim "  communication " ∈
      sanitizeTags ["  communication ", "communication", "   ", "", "leadership"] := by
  refine ⟨by decide, ?_⟩
  exact (tags_deduplicated_and_trimmed
    ["  communication ", "communication", "   ", "", "leadership"]).2.2
    "  communication " (by decide) (by decide)

/-- Employee summary record shown on the admin and manager dashboards,
from the Employee interface in project/frontend/src/types/index.ts:
avg_sentiment is a number, embedded as a rational. -/
structure Employee where
  id : Nat
  name : String
  email : String
  role : String
  is_active : Bool
  feedback_count : Nat
  last_feedback_date : Option String
  avg_sentiment : ℚ
deriving DecidableEq, Repr

/-- Sentiment label of the admin and manager dashboards, from
getSentimentLabel in project/frontend/src/components/AdminDashboard.tsx
lines 84-88 (the same function appears in ManagerDashboard): the label
is computed from the numeric avg_sentiment by thresholds. -/
def getSentimentLabel (sentiment : ℚ) : String :=
  if sentiment ≥ 7/10 then "Positive"
  else if sentiment ≥ 2/5 then "Neutral"
  else "Needs Attention"

/-- Per-feedback sentiment text shown by the employee dashboard and
feedback history, which render the enumerated value itself. -/
def sentimentText (s : Sentiment) : String :=
  match s with
  | .positive => "positive"
  | .neutral => "neutral"
  | .negative => "negative"

/-- C9 counterexample: feedback sentiment is not everywhere an
enumerated value.  The admin and manager dashboards display, for a
concrete Employee row, a sentiment label computed from the numeric
avg_sentiment score by thresholds; the label changes with the number
and can read Needs Attention, which is none of positive, neutral,
negative. -/
theorem sentiment_displayed_numeric_counterexample :
    getSentimentLabel
      ({ id := 9, name := "E", email := "e@acme.com", role := "employee",
         is_active := true, feedback_count := 3,
         last_feedback_date := none,
         avg_sentiment := 55/100 } : Employee).avg_sentiment = "Neutral" ∧
    getSentimentLabel
      ({ id := 9, name := "E", email := "e@acme.com", role := "employee",
         is_active := true, feedback_count := 3,
         last_feedback_date := none,
         avg_sentiment := 39/100 } : Employee).avg_sentiment =
      "Needs Attention" ∧
    "Needs Attention" ∉ ["positive", "neutral", "negative"] := by
  refine ⟨?_, ?_, by decide⟩ <;> · unfold getSentimentLabel; norm_num

/-- C9 amended: the per-feedback sentiment is enumerated, taking
exactly the three values positive, neutral, negative, and that is what
the per-feedback views display; but the admin and manager dashboards
additionally display a per-employee sentiment derived from the numeric
avg_sentiment score by thresholds, whose label genuinely varies with
the number. -/
theorem sentiment_enum_per_feedback_numeric_per_employee :
    (∀ s : Sentiment, s = .positive ∨ s = .neutral ∨ s = .negative) ∧
    (∀ s : Sentiment, sentimentText s ∈ ["positive", "neutral", "negative"]) ∧
    (∀ x : ℚ, getSentimentLabel x = "Positive" ∨
      getSentimentLabel x = "Neutral" ∨
      getSentimentLabel x = "Needs Attention") ∧
    (∃ x y : ℚ, getSentimentLabel x ≠ getSentimentLabel y) := by
  refine ⟨fun s => ?_, fun s => ?_, fun x => ?_, 1, 0, ?_⟩
  · cases s <;> simp
  · cases s <;> simp [sentimentText]
  · unfold getSentimentLabel
    split
    · exact .inl rfl
    split
    · exact .inr (.inl rfl)
    · exact .inr (.inr rfl)
  · unfold getSentimentLabel
    norm_num
    decide

/-- Number value of the JavaScript runtime, restricted to the values
the dashboard arithmetic can produce: a finite rational, NaN, or a
signed infinity. -/
inductive JSNum where
  | num (x : ℚ)
  | nan
  | posInf
  | negInf
deriving DecidableEq, Repr

/-- Division of two finite JavaScript numbers: division by zero gives
NaN for 0/0 and a signed infinity otherwise. -/
def jsDiv (a b : ℚ) : JSNum :=
  if b = 0 then
    if a = 0 then .nan else if a > 0 then .posInf else .negInf
  else .num (a / b)

/-- Multiplication of a JavaScript number by a non-zero positive finite
constant, as in the percentage scaling by 100. -/
def jsMulPos (v : JSNum) (c : ℚ) : JSNum :=
  match v with
  | .num x => .num (x * c)
  | .nan => .nan
  | .posInf => .posInf
  | .negInf => .negInf

/-- Math.round: rounds a finite value to the nearest integer, half
away from negative infinity; NaN and infinities pass through. -/
def jsRound (v : JSNum) : JSNum :=
  match v with
  | .num x => .num (round x)
  | .nan => .nan
  | .posInf => .posInf
  | .negInf => .negInf

/-- Expression v || 0 on a JavaScript number: NaN and 0 are falsy and
give 0; every other number is returned unchanged. -/
def jsOrZero (v : JSNum) : JSNum :=
  if v = .nan ∨ v = .num 0 then .num 0 else v

/-- Positive-feedback percentage of the dashboards, from
project/frontend/src/components/AdminDashboard.tsx line 166 and the
ManagerDashboard stats card:
Math.round((stats.sentiment_distribution.positive / stats.total_feedback) * 100) || 0. -/
def positivePercent (positive total : ℕ) : JSNum :=
  jsOrZero (jsRound (jsMulPos (jsDiv (positive : ℚ) (total : ℚ)) 100))

/-- C10: the rendered positive-feedback percentage is total: for every
consistent stats value (positive count at most the total) the result is
a finite number, and when total_feedback is 0 the division yields NaN
and the rendered percentage is exactly 0. -/
theorem positive_percent_total_and_zero (positive total : ℕ)
    (h : positive ≤ total) :
    (∃ q : ℚ, positivePercent positive total = .num q) ∧
    (total = 0 → positivePercent positive total = .num 0) := by
  by_cases h0 : total = 0
  · subst h0
    have hp : positive = 0 := Nat.le_zero.mp h
    subst hp
    refine ⟨⟨0, ?_⟩, fun _ => ?_⟩ <;>
      simp [positivePercent, jsDiv, jsMulPos, jsRound, jsOrZero]
  · have ht : (total : ℚ) ≠ 0 := Nat.cast_ne_zero.mpr h0
    refine ⟨?_, fun hcon => absurd hcon h0⟩
    simp only [positivePercent, jsDiv, if_neg ht, jsMulPos, jsRound, jsOrZero]
    split
    · exact ⟨0, rfl⟩
    · exact ⟨round ((positive : ℚ) / (total : ℚ) * 100), rfl⟩

theorem positive_percent_total_and_zero_witness :
    ((∃ q : ℚ, positivePercent 0 0 = .num q) ∧
      (0 = 0 → positivePercent 0 0 = .num 0)) ∧
    (∃ q : ℚ, positivePercent 2 3 = .num q) :=
  ⟨positive_percent_total_and_zero 0 0 (by decide),
   (positive_percent_total_and_zero 2 3 (by norm_num)).1⟩

end HRFeedback
